import Mathlib

/-!
Verification development for the user-management service
(`UserManagementWithEmailOtp`): a shallow embedding in Lean 4 of the
OTP lifecycle (`app/services/otp.py`), the authentication orchestration
(`app/services/auth.py`), the OAuth state guard
(`app/services/oauth.py`) and the legacy credential hasher
(`app/auth.py`), together with theorems about their behaviour.

Modelling conventions:
* Redis is modelled as an association list of `(key, value, expiresAt)`
  entries; `set` with `ex=ttl` records an absolute expiry `now + ttl`,
  `get` at time `now` returns the value only while `now < expiresAt`
  (an expired key behaves exactly like an absent one, as in Redis).
* Randomness (`secrets.randbelow` inside `generate_otp`) and the SMTP
  outcome of `send_otp_email` are passed in as explicit arguments.
* `raise HTTPException(status_code, detail)` is modelled as
  `Except.error ⟨status, detail⟩`; functions that have already committed
  database or Redis writes before raising return the mutated state
  alongside the error, mirroring the commit points in the source.
* Python truthiness on optional strings (`if not user.hashed_password`,
  `if user.provider_id`) is modelled by `pyTruthy`: `None` and the empty
  string are falsy.
-/

namespace UserMgmt

/-- HTTP-level failure raised by the services
(`HTTPException(status_code=..., detail=...)`). -/
structure HTTPError where
  status : Nat
  detail : String
deriving DecidableEq, Repr

/-- One Redis entry: a key holding a string value until an absolute
expiry time (seconds). -/
structure RedisEntry where
  key : String
  value : String
  expiresAt : Nat
deriving DecidableEq, Repr

/-- The Redis database visible to the OTP service: an association list
of entries, most recent write first. -/
abbrev RedisState := List RedisEntry

/-- `redis.get(key)` at time `now`: the stored value, unless the key is
absent or its TTL has elapsed (Redis deletes expired keys lazily, so an
expired key reads as missing). -/
def redisGet (st : RedisState) (key : String) (now : Nat) : Option String :=
  match st.find? (fun e => e.key == key) with
  | none => none
  | some e => if now < e.expiresAt then some e.value else none

/-- `redis.set(key, value, ex=ttl)` at time `now`: overwrite any
existing entry for `key` with `value`, expiring at `now + ttl`. -/
def redisSet (st : RedisState) (key value : String) (ttl now : Nat) : RedisState :=
  ⟨key, value, now + ttl⟩ :: st.filter (fun e => !(e.key == key))

/-- `redis.delete(key)`: remove every entry for `key`. -/
def redisDelete (st : RedisState) (key : String) : RedisState :=
  st.filter (fun e => !(e.key == key))

/-- `_otp_key(email)` from `app/services/otp.py`: the Redis key scoping
an OTP to an email. -/
def otpKey (email : String) : String := "otp:" ++ email

/-- `OTPService.issue_otp`: store a newly generated OTP under the
email's key with the configured expiry and return it. The generated
code (`generate_otp()`, a random draw) is an explicit argument. -/
def issue_otp (ttl : Nat) (email code : String) (st : RedisState) (now : Nat) :
    String × RedisState :=
  (code, redisSet st (otpKey email) code ttl now)

/-- `OTPService.validate_otp`: look up the stored code; return `false`
if absent or mismatched, otherwise delete the record and return
`true`. -/
def validate_otp (email code : String) (st : RedisState) (now : Nat) :
    Bool × RedisState :=
  match redisGet st (otpKey email) now with
  | none => (false, st)
  | some stored =>
      if stored = code then (true, redisDelete st (otpKey email))
      else (false, st)

/-- `OTPService.invalidate`: remove an OTP without validation (used
after failed email sends). -/
def invalidate (email : String) (st : RedisState) : RedisState :=
  redisDelete st (otpKey email)

lemma find?_filter_ne_key (st : RedisState) (key : String) :
    (st.filter (fun e => !(e.key == key))).find? (fun e => e.key == key) = none := by
  rw [List.find?_eq_none]
  intro e he
  have h := List.of_mem_filter he
  simpa using h

lemma redisGet_delete (st : RedisState) (key : String) (now : Nat) :
    redisGet (redisDelete st key) key now = none := by
  unfold redisGet redisDelete
  rw [find?_filter_ne_key]

lemma redisGet_set (st : RedisState) (key value : String) (ttl now now' : Nat) :
    redisGet (redisSet st key value ttl now) key now' =
      if now' < now + ttl then some value else none := by
  simp [redisGet, redisSet, List.find?]

/-- The `users` table row (`app/db/models/user.py`, reconstructed from
the columns that `app/services/auth.py` reads and writes and from the
spec's Account data model; the database-assigned `id` and
`created_at` columns play no role in the service logic and are
omitted). -/
structure User where
  email : String
  hashed_password : Option String
  auth_provider : String
  provider_id : Option String
  is_active : Bool
  is_verified : Bool
deriving DecidableEq, Repr

/-- The normalized OAuth profile (`OAuthProfile` dataclass in
`app/services/oauth.py`); the provider tag is kept as a string. -/
structure OAuthProfile where
  provider : String
  provider_id : String
  email : Option String
  name : Option String := none
deriving DecidableEq, Repr

/-- Access token minted by `create_access_token`.

Modelled from the spec: `app/core/security.py` is not in the source
tree (only its callers in `app/services/auth.py` are); §4.5 Token
Issuer says `mint(subjectEmail, ttl)` produces a signed token
embedding the subject and the absolute expiry `now + ttl`. The
signature itself is irrelevant to the claims and is not modelled. -/
structure AccessToken where
  subject : String
  expiresAt : Nat
deriving DecidableEq, Repr

/-- `create_access_token(subject=email, expires_delta=ttl)`.

Modelled from the spec: see `AccessToken`. -/
def create_access_token (subject : String) (ttl now : Nat) : AccessToken :=
  ⟨subject, now + ttl⟩

/-- Combined mutable state seen by `AuthService`: the SQL `users` table
(insertion order preserved) and the Redis database. -/
structure AuthState where
  users : List User
  redis : RedisState
deriving DecidableEq, Repr

/-- `AuthService._get_user_by_email`: `select(User).where(User.email ==
email)` returning the first match. -/
def get_user_by_email (users : List User) (email : String) : Option User :=
  users.find? (fun u => u.email == email)

/-- Replace the row for `email` after mutating the fetched ORM object
and committing (`user.x = ...; session.commit()`). -/
def updateUser (users : List User) (email : String) (user' : User) : List User :=
  users.map (fun u => if u.email == email then user' else u)

/-- Python truthiness of an optional string: `None` and `""` are
falsy. -/
def pyTruthy : Option String → Bool
  | none => false
  | some s => !(s == "")

/-- Render the optional SMTP error the way the f-string
`f"... ({err})"` renders it (Python prints `None` for the absent
case). -/
def errText : Option String → String
  | none => "None"
  | some s => s

/-- The detail string of the delivery-failure `HTTPException` raised by
`register` and `resend_otp`. -/
def deliveryFailedDetail (err : Option String) : String :=
  "Failed to send verification code. Please check SMTP settings. (" ++ errText err ++ ")"

/-- `AuthService.register(payload)`.

Arguments standing for effects of collaborators: `hashFn` is
`get_password_hash` (from the missing `app/core/security.py`; the
claims never inspect the digest, so it stays abstract), `otpCode` is
the random code drawn by `generate_otp()`, and `sendResult` is the
`(sent, err)` pair returned by `send_otp_email`. -/
def register (hashFn : String → String) (ttl : Nat) (email password : String)
    (otpCode : String) (sendResult : Bool × Option String) (st : AuthState)
    (now : Nat) : Except HTTPError User × AuthState :=
  match get_user_by_email st.users email with
  | some _ =>
      (.error ⟨400, "An account with this email already exists."⟩, st)
  | none =>
      let user : User :=
        { email := email
          hashed_password := some (hashFn password)
          auth_provider := "local"
          provider_id := none
          is_active := false
          is_verified := false }
      let users' := st.users ++ [user]
      let issued := issue_otp ttl email otpCode st.redis now
      let sent := sendResult.1
      if sent then
        (.ok user, ⟨users', issued.2⟩)
      else
        (.error ⟨500, deliveryFailedDetail sendResult.2⟩,
         ⟨users', invalidate email issued.2⟩)

/-- `AuthService.verify_otp(payload)`: validate the submitted code and
activate the user. -/
def verify_otp (email code : String) (st : AuthState) (now : Nat) :
    Except HTTPError User × AuthState :=
  match get_user_by_email st.users email with
  | none => (.error ⟨404, "User not found."⟩, st)
  | some user =>
      let v := validate_otp email code st.redis now
      if v.1 then
        let user' := { user with is_verified := true, is_active := true }
        (.ok user', ⟨updateUser st.users email user', v.2⟩)
      else
        (.error ⟨400, "Invalid or expired verification code."⟩, ⟨st.users, v.2⟩)

/-- `AuthService.resend_otp(email)`: issue and send a fresh OTP for an
existing user; on delivery failure invalidate it, as in `register`. -/
def resend_otp (ttl : Nat) (email otpCode : String)
    (sendResult : Bool × Option String) (st : AuthState) (now : Nat) :
    Except HTTPError Unit × AuthState :=
  match get_user_by_email st.users email with
  | none => (.error ⟨404, "User not found."⟩, st)
  | some _ =>
      let issued := issue_otp ttl email otpCode st.redis now
      if sendResult.1 then
        (.ok (), ⟨st.users, issued.2⟩)
      else
        (.error ⟨500, deliveryFailedDetail sendResult.2⟩,
         ⟨st.users, invalidate email issued.2⟩)

/-- `AuthService.login(payload)`.

`verifyFn` is `verify_password` from the missing
`app/core/security.py` (spec §4.1: `verify(password, digest) ->
bool`); the source short-circuits `not user.hashed_password or not
verify_password(...)`, hence the `pyTruthy` guard. `login` commits
nothing, so no state is returned. -/
def login (verifyFn : String → String → Bool) (tokenTtl : Nat)
    (email password : String) (st : AuthState) (now : Nat) :
    Except HTTPError AccessToken :=
  match get_user_by_email st.users email with
  | none => .error ⟨401, "Incorrect email or password."⟩
  | some user =>
      if user.auth_provider ≠ "local" then
        .error ⟨400, "This account uses social login. Sign in with Google or GitHub."⟩
      else if !(pyTruthy user.hashed_password)
          ∨ !(verifyFn password (user.hashed_password.getD "")) then
        .error ⟨401, "Incorrect email or password."⟩
      else if !user.is_verified then
        .error ⟨400, "Email not verified. Please complete the OTP flow."⟩
      else
        .ok (create_access_token user.email tokenTtl now)

/-- `user.provider_id or profile.provider_id`: Python `or` keeps a
truthy left operand, otherwise takes the right one. -/
def pyOrProviderId (stored : Option String) (fallback : String) : Option String :=
  if pyTruthy stored then stored else some fallback

/-- `AuthService.login_with_oauth(profile)`: create or update a user
from an OAuth profile and mint a token. -/
def login_with_oauth (tokenTtl : Nat) (profile : OAuthProfile)
    (st : AuthState) (now : Nat) : Except HTTPError AccessToken × AuthState :=
  if !(pyTruthy profile.email) then
    (.error ⟨400, "Email address not provided by OAuth provider. Cannot proceed."⟩, st)
  else
    let email := profile.email.getD ""
    match get_user_by_email st.users email with
    | some user =>
        if user.auth_provider ≠ profile.provider then
          (.error ⟨400, "Account exists with a different sign-in method. Use your original provider."⟩, st)
        else if pyTruthy user.provider_id
            ∧ user.provider_id ≠ some profile.provider_id then
          (.error ⟨400, "OAuth provider id mismatch for this account."⟩, st)
        else
          let user' := { user with
            provider_id := pyOrProviderId user.provider_id profile.provider_id
            is_verified := true
            is_active := true }
          (.ok (create_access_token user'.email tokenTtl now),
           ⟨updateUser st.users email user', st.redis⟩)
    | none =>
        let user : User :=
          { email := email
            hashed_password := none
            auth_provider := profile.provider
            provider_id := some profile.provider_id
            is_active := true
            is_verified := true }
        (.ok (create_access_token user.email tokenTtl now),
         ⟨st.users ++ [user], st.redis⟩)

/-!
## OAuth state guard (`app/services/oauth.py`)

The state token is manipulated as a Python string, i.e. a sequence of
characters, modelled here as `List Char`. `str.split(":")` and `int()`
are embedded below (`int()` on ASCII text: strip surrounding
whitespace, an optional sign, then digits with single underscores
allowed between them). `hmac.new(...).hexdigest()` is kept abstract as
a function argument, and `hmac.compare_digest` on equal-length inputs
is functionally string equality (its constant-time execution is a
timing property outside a functional model). The clock
(`time.time()`) is modelled in whole seconds.
-/

/-- A Python string, as the character sequence it is. -/
abbrev Chars := List Char

/-- `s.split(sep)` for a one-character separator: split at every
occurrence, keeping empty parts (`"".split(":") == [""]`). -/
def pySplit (sep : Char) : Chars → List Chars
  | [] => [[]]
  | c :: rest =>
      if c = sep then [] :: pySplit sep rest
      else
        match pySplit sep rest with
        | [] => [[c]]
        | p :: ps => (c :: p) :: ps

/-- Whitespace stripped by Python's `int()` / `str.strip()` (ASCII
part): space, tab, newline, carriage return, vertical tab, form
feed. -/
def isPyWs (c : Char) : Bool :=
  c = ' ' || c = '\t' || c = '\n' || c = '\r' || c = Char.ofNat 11 || c = Char.ofNat 12

/-- Strip leading and trailing whitespace. -/
def pyStripWs (s : Chars) : Chars :=
  ((s.dropWhile isPyWs).reverse.dropWhile isPyWs).reverse

/-- Numeric value of a decimal digit character. -/
def digitVal (c : Char) : Nat := c.toNat - 48

/-- Accept the remaining digits of an integer literal, allowing a
single `_` between two digits (as Python does), accumulating the
value; `afterUnderscore` records that the previous character was an
underscore, which must be followed by a digit. -/
def parseDigitsGo (acc : Nat) (afterUnderscore : Bool) : Chars → Option Nat
  | [] => if afterUnderscore then none else some acc
  | c :: cs =>
      if c.isDigit then parseDigitsGo (acc * 10 + digitVal c) false cs
      else if c = '_' && !afterUnderscore then parseDigitsGo acc true cs
      else none

/-- Parse a nonempty digit sequence (underscores only between
digits). -/
def parseDigits : Chars → Option Nat
  | [] => none
  | c :: cs => if c.isDigit then parseDigitsGo (digitVal c) false cs else none

/-- Python `int(s)` on ASCII text: strip whitespace, optional single
sign, then digits; `none` models the `ValueError` that the guard's
`try` block converts into the invalid-format failure. -/
def pyInt (s : Chars) : Option Int :=
  match pyStripWs s with
  | [] => none
  | c :: rest =>
      if c = '+' then (parseDigits rest).map Int.ofNat
      else if c = '-' then (parseDigits rest).map (fun n => -(Int.ofNat n))
      else (parseDigits (c :: rest)).map Int.ofNat

/-- The character for the decimal digit `d`. -/
def digitChar (d : Nat) : Char := Char.ofNat (48 + d)

/-- Python's decimal rendering of a natural number (`str(n)` /
`f"{n}"`). -/
def natChars (n : Nat) : Chars :=
  if n = 0 then ['0'] else (Nat.digits 10 n).reverse.map digitChar

/-- Python's decimal rendering of an integer. -/
def intChars : Int → Chars
  | .ofNat n => natChars n
  | .negSucc m => '-' :: natChars (m + 1)

/-- `OAuthService._sign_state(nonce, ts)`: `f"{payload}:{sig}"` for
`payload = f"{nonce}:{ts}"` and `sig = hmac.new(SECRET_KEY, payload,
sha256).hexdigest()`; the keyed hash (secret baked in) is the abstract
argument `hmacFn`. -/
def sign_state (hmacFn : Chars → Chars) (nonce : Chars) (ts : Int) : Chars :=
  let payload := nonce ++ ':' :: intChars ts
  payload ++ ':' :: hmacFn payload

/-- `OAuthService.generate_state()`: sign a fresh nonce with the
current whole-second timestamp (`int(time.time())`); the random nonce
is an explicit argument. -/
def generate_state (hmacFn : Chars → Chars) (nonce : Chars) (now : Nat) : Chars :=
  sign_state hmacFn nonce (now : Int)

/-- The three failures `validate_state` can raise. -/
def invalidStateError : HTTPError := ⟨400, "Invalid OAuth state."⟩

def invalidSignatureError : HTTPError := ⟨400, "Invalid OAuth state signature."⟩

def expiredStateError : HTTPError := ⟨400, "OAuth state has expired."⟩

/-- `OAuthService.validate_state(state)`: unpack
`nonce, ts_str, sig = state.split(":")` and `ts = int(ts_str)` (any
failure → invalid format), recompute the signed token and compare it
with the whole input (`hmac.compare_digest(expected, state)`), then
check `time.time() - ts > state_ttl`. -/
def validate_state (hmacFn : Chars → Chars) (ttl : Nat) (now : Int)
    (state : Chars) : Except HTTPError Unit :=
  match pySplit ':' state with
  | [nonce, tsStr, _sig] =>
      match pyInt tsStr with
      | none => .error invalidStateError
      | some ts =>
          if sign_state hmacFn nonce ts = state then
            if now - ts > (ttl : Int) then .error expiredStateError
            else .ok ()
          else .error invalidSignatureError
  | _ => .error invalidStateError

/-!
## Legacy credential hasher (`app/auth.py`)

`verify_password` forwards `pwd_context.verify` for a
`CryptContext(schemes=["bcrypt"])`. Per passlib's documented contract,
`CryptContext.verify(secret, hash)` raises `UnknownHashError` (a
`ValueError`) when no configured scheme identifies the hash string;
only for an identified bcrypt digest does it return the handler's
boolean. The bcrypt handler's actual password check is abstract here
(`check`); identification is by bcrypt's ident prefixes. -/

/-- The passlib exception relevant here: `UnknownHashError`, raised
when a hash string matches no configured scheme. -/
inductive PasslibError where
  | unknownHash
deriving DecidableEq, Repr

/-- Python's `str.startswith`, on the character sequences. -/
def pyStartsWith (s pre : String) : Bool :=
  pre.data.isPrefixOf s.data

/-- passlib's `bcrypt.identify`: a digest is recognized iff it starts
with one of bcrypt's ident prefixes. Any other string is a malformed
(structurally invalid) digest for this context. -/
def bcryptIdentify (digest : String) : Bool :=
  pyStartsWith digest "$2$" || pyStartsWith digest "$2a$" || pyStartsWith digest "$2b$"
    || pyStartsWith digest "$2x$" || pyStartsWith digest "$2y$"

/-- `CryptContext(schemes=["bcrypt"]).verify(secret, hash)`: raise
`UnknownHashError` on an unidentified digest, otherwise return the
bcrypt check's boolean. -/
def cryptContextVerify (check : String → String → Bool)
    (password digest : String) : Except PasslibError Bool :=
  if bcryptIdentify digest then .ok (check password digest)
  else .error .unknownHash

/-- `verify_password(plain_password, hashed_password)` from the legacy
`app/auth.py`: forwards `pwd_context.verify` with no exception
handling, so a library error escapes to the caller. -/
def verify_password (check : String → String → Bool)
    (plain_password hashed_password : String) : Except PasslibError Bool :=
  cryptContextVerify check plain_password hashed_password

/-!
## Supporting lemmas
-/

lemma pySplit_ne_nil (sep : Char) (s : Chars) : pySplit sep s ≠ [] := by
  cases s with
  | nil => simp [pySplit]
  | cons c rest =>
      unfold pySplit
      by_cases h : c = sep
      · simp [h]
      · rw [if_neg h]
        cases pySplit sep rest <;> simp

lemma pySplit_sepFree (sep : Char) (s : Chars) (hs : ∀ c ∈ s, c ≠ sep) :
    pySplit sep s = [s] := by
  induction s with
  | nil => rfl
  | cons c rest ih =>
      have hc : c ≠ sep := hs c (by simp)
      have hr : pySplit sep rest = [rest] := ih (fun d hd => hs d (by simp [hd]))
      unfold pySplit
      rw [if_neg hc, hr]

lemma pySplit_append_sep (sep : Char) (a s : Chars) (ha : ∀ c ∈ a, c ≠ sep) :
    pySplit sep (a ++ sep :: s) = a :: pySplit sep s := by
  induction a with
  | nil =>
      conv_lhs => rw [List.nil_append, pySplit]
      rw [if_pos rfl]
  | cons c rest ih =>
      have hc : c ≠ sep := ha c (by simp)
      have hr := ih (fun d hd => ha d (by simp [hd]))
      conv_lhs => rw [List.cons_append, pySplit]
      rw [if_neg hc, hr]

lemma pySplit_triple (sep : Char) (a b c : Chars)
    (ha : ∀ ch ∈ a, ch ≠ sep) (hb : ∀ ch ∈ b, ch ≠ sep)
    (hc : ∀ ch ∈ c, ch ≠ sep) :
    pySplit sep (a ++ sep :: (b ++ sep :: c)) = [a, b, c] := by
  rw [pySplit_append_sep sep a _ ha, pySplit_append_sep sep b _ hb,
    pySplit_sepFree sep c hc]

lemma digitChar_isDigit {d : Nat} (hd : d < 10) : (digitChar d).isDigit = true := by
  interval_cases d <;> decide

lemma digitVal_digitChar {d : Nat} (hd : d < 10) : digitVal (digitChar d) = d := by
  interval_cases d <;> decide

lemma isDigit_ne_colon {c : Char} (h : c.isDigit = true) : c ≠ ':' := by
  intro he; rw [he] at h; exact absurd h (by decide)

lemma isDigit_ne_plus {c : Char} (h : c.isDigit = true) : c ≠ '+' := by
  intro he; rw [he] at h; exact absurd h (by decide)

lemma isDigit_ne_minus {c : Char} (h : c.isDigit = true) : c ≠ '-' := by
  intro he; rw [he] at h; exact absurd h (by decide)

lemma isDigit_ne_underscore {c : Char} (h : c.isDigit = true) : c ≠ '_' := by
  intro he; rw [he] at h; exact absurd h (by decide)

lemma isDigit_not_ws {c : Char} (h : c.isDigit = true) : isPyWs c = false := by
  by_contra hw
  have hw' : isPyWs c = true := by simpa using hw
  simp only [isPyWs, Bool.or_eq_true, decide_eq_true_eq] at hw'
  rcases hw' with ((((h1 | h1) | h1) | h1) | h1) | h1 <;>
    (rw [h1] at h; exact absurd h (by decide))

lemma parseDigitsGo_all_digits (ds : Chars) (hds : ∀ c ∈ ds, c.isDigit = true) :
    ∀ acc, parseDigitsGo acc false ds
      = some (ds.foldl (fun a c => a * 10 + digitVal c) acc) := by
  induction ds with
  | nil => intro acc; rfl
  | cons c cs ih =>
      intro acc
      have hc : c.isDigit = true := hds c (by simp)
      simp only [parseDigitsGo, hc, if_true, List.foldl_cons]
      exact ih (fun d hd => hds d (by simp [hd])) _

lemma parseDigits_all_digits (ds : Chars) (hne : ds ≠ [])
    (hds : ∀ c ∈ ds, c.isDigit = true) :
    parseDigits ds = some (ds.foldl (fun a c => a * 10 + digitVal c) 0) := by
  cases ds with
  | nil => exact absurd rfl hne
  | cons c cs =>
      have hc : c.isDigit = true := hds c (by simp)
      simp only [parseDigits, hc, if_true, List.foldl_cons]
      rw [parseDigitsGo_all_digits cs (fun d hd => hds d (by simp [hd]))]
      simp [digitVal]

lemma foldl_reverse_ofDigits (l : List Nat) :
    ∀ acc, List.foldl (fun a d => a * 10 + d) acc l.reverse
      = acc * 10 ^ l.length + Nat.ofDigits 10 l := by
  induction l with
  | nil => intro acc; simp [Nat.ofDigits]
  | cons d ds ih =>
      intro acc
      rw [List.reverse_cons, List.foldl_append, ih acc]
      simp only [List.foldl_cons, List.foldl_nil, List.length_cons,
        Nat.ofDigits_cons, pow_succ]
      ring

lemma foldl_map_digitChar (l : List Nat) (hl : ∀ d ∈ l, d < 10) :
    ∀ acc, List.foldl (fun a c => a * 10 + digitVal c) acc (l.map digitChar)
      = List.foldl (fun a d => a * 10 + d) acc l := by
  induction l with
  | nil => intro acc; rfl
  | cons d ds ih =>
      intro acc
      simp only [List.map_cons, List.foldl_cons]
      rw [digitVal_digitChar (hl d (by simp))]
      exact ih (fun e he => hl e (by simp [he])) _

lemma natChars_all_digits (n : Nat) : ∀ c ∈ natChars n, c.isDigit = true := by
  intro c hc
  unfold natChars at hc
  by_cases h : n = 0
  · rw [if_pos h] at hc
    simp at hc
    rw [hc]; decide
  · rw [if_neg h] at hc
    obtain ⟨d, hd, hdc⟩ := List.mem_map.mp hc
    have : d < 10 := Nat.digits_lt_base (by norm_num) (List.mem_reverse.mp hd)
    rw [← hdc]
    exact digitChar_isDigit this

lemma natChars_ne_nil (n : Nat) : natChars n ≠ [] := by
  unfold natChars
  by_cases h : n = 0
  · rw [if_pos h]; simp
  · rw [if_neg h]
    simp [Nat.digits_ne_nil_iff_ne_zero, h]

lemma natChars_ne_colon (n : Nat) : ∀ c ∈ natChars n, c ≠ ':' :=
  fun c hc => isDigit_ne_colon (natChars_all_digits n c hc)

lemma parseDigits_natChars (n : Nat) : parseDigits (natChars n) = some n := by
  by_cases h : n = 0
  · subst h; decide
  · have hd : ∀ d ∈ Nat.digits 10 n, d < 10 :=
      fun d hd => Nat.digits_lt_base (by norm_num) hd
    rw [parseDigits_all_digits _ (natChars_ne_nil n) (natChars_all_digits n)]
    congr 1
    unfold natChars
    rw [if_neg h,
      foldl_map_digitChar _ (fun d hd' => hd d (List.mem_reverse.mp hd')),
      foldl_reverse_ofDigits]
    simp [Nat.ofDigits_digits]

lemma pyStripWs_eq_self (s : Chars) (h : ∀ c ∈ s, isPyWs c = false) :
    pyStripWs s = s := by
  unfold pyStripWs
  have h1 : s.dropWhile isPyWs = s := by
    cases s with
    | nil => rfl
    | cons c cs => rw [List.dropWhile_cons, h c (by simp)]; simp
  rw [h1]
  have h2 : s.reverse.dropWhile isPyWs = s.reverse := by
    cases hr : s.reverse with
    | nil => rfl
    | cons c cs =>
        have hcmem : c ∈ s := by rw [← List.mem_reverse, hr]; simp
        rw [List.dropWhile_cons, h c hcmem]; simp
  rw [h2, List.reverse_reverse]

lemma pyInt_natChars (n : Nat) : pyInt (natChars n) = some (n : Int) := by
  have hall := natChars_all_digits n
  have hws : ∀ c ∈ natChars n, isPyWs c = false :=
    fun c hc => isDigit_not_ws (hall c hc)
  obtain ⟨c, cs, he⟩ := List.exists_cons_of_ne_nil (natChars_ne_nil n)
  have hc : c.isDigit = true := hall c (by rw [he]; simp)
  unfold pyInt
  rw [pyStripWs_eq_self _ hws, he]
  show (if c = '+' then (parseDigits cs).map Int.ofNat
      else if c = '-' then (parseDigits cs).map (fun n => -(Int.ofNat n))
      else (parseDigits (c :: cs)).map Int.ofNat) = some (n : Int)
  rw [if_neg (isDigit_ne_plus hc), if_neg (isDigit_ne_minus hc), ← he,
    parseDigits_natChars]
  rfl

lemma intChars_ofNat (n : Nat) : intChars (n : Int) = natChars n := rfl

lemma validate_state_not_triple (hmacFn : Chars → Chars) (ttl : Nat) (now : Int)
    (state : Chars) (h : ∀ a b c, pySplit ':' state ≠ [a, b, c]) :
    validate_state hmacFn ttl now state = .error invalidStateError := by
  rcases hsp : pySplit ':' state with _ | ⟨a, _ | ⟨b, _ | ⟨c, _ | ⟨d, t⟩⟩⟩⟩
  · simp [validate_state, hsp]
  · simp [validate_state, hsp]
  · simp [validate_state, hsp]
  · exact absurd hsp (h a b c)
  · simp [validate_state, hsp]

lemma validate_state_badint (hmacFn : Chars → Chars) (ttl : Nat) (now : Int)
    (state a b c : Chars) (hsp : pySplit ':' state = [a, b, c])
    (hb : pyInt b = none) :
    validate_state hmacFn ttl now state = .error invalidStateError := by
  simp [validate_state, hsp, hb]

lemma validate_state_parse (hmacFn : Chars → Chars) (ttl : Nat) (now : Int)
    (state a b c : Chars) (ts : Int) (hsp : pySplit ':' state = [a, b, c])
    (hts : pyInt b = some ts) :
    validate_state hmacFn ttl now state =
      if sign_state hmacFn a ts = state then
        (if now - ts > (ttl : Int) then Except.error expiredStateError
         else Except.ok ())
      else Except.error invalidSignatureError := by
  simp [validate_state, hsp, hts]

/-!
## Claim theorems
-/

/-- C1: OTP validation is consuming: whenever `validate_otp(email, code)`
returns true against a store holding that code for that email, the stored
record is deleted, so an immediately following `validate_otp(email, code)`
against the resulting store returns false. -/
theorem validate_otp_consuming (email code : String) (st : RedisState) (now : Nat)
    (h : (validate_otp email code st now).1 = true) :
    redisGet (validate_otp email code st now).2 (otpKey email) now = none ∧
      (validate_otp email code (validate_otp email code st now).2 now).1 = false := by
  cases hg : redisGet st (otpKey email) now with
  | none => simp [validate_otp, hg] at h
  | some stored =>
      by_cases he : stored = code
      · refine ⟨?_, ?_⟩ <;>
          simp [validate_otp, hg, he, redisGet_delete]
      · simp [validate_otp, hg, he] at h

/-- Witness for `validate_otp_consuming`: code `123456` issued for
`a@x.com` validates once, then fails. -/
theorem validate_otp_consuming_witness :
    (validate_otp "a@x.com" "123456" [⟨"otp:a@x.com", "123456", 120⟩] 0).1 = true ∧
      (redisGet (validate_otp "a@x.com" "123456" [⟨"otp:a@x.com", "123456", 120⟩] 0).2
          (otpKey "a@x.com") 0 = none ∧
        (validate_otp "a@x.com" "123456"
            (validate_otp "a@x.com" "123456" [⟨"otp:a@x.com", "123456", 120⟩] 0).2 0).1
          = false) :=
  ⟨by decide,
   validate_otp_consuming "a@x.com" "123456" [⟨"otp:a@x.com", "123456", 120⟩] 0 (by decide)⟩

/-- C10: failed OTP validation does not consume the live code: whenever
`validate_otp(email, code)` returns false (no code stored, or a
mismatch), the Redis store is returned exactly as it was. -/
theorem validate_otp_failure_frame (email code : String) (st : RedisState) (now : Nat)
    (h : (validate_otp email code st now).1 = false) :
    (validate_otp email code st now).2 = st := by
  cases hg : redisGet st (otpKey email) now with
  | none => simp [validate_otp, hg]
  | some stored =>
      by_cases he : stored = code
      · simp [validate_otp, hg, he] at h
      · simp [validate_otp, hg, he]

/-- Witness for `validate_otp_failure_frame`: a wrong guess against a
live code leaves the store untouched (and the real code still
validates). -/
theorem validate_otp_failure_frame_witness :
    (validate_otp "a@x.com" "000000" [⟨"otp:a@x.com", "123456", 120⟩] 0).1 = false ∧
      (validate_otp "a@x.com" "000000" [⟨"otp:a@x.com", "123456", 120⟩] 0).2
        = [⟨"otp:a@x.com", "123456", 120⟩] :=
  ⟨by decide,
   validate_otp_failure_frame "a@x.com" "000000" [⟨"otp:a@x.com", "123456", 120⟩] 0 (by decide)⟩

/-- C6: issuing an OTP supersedes the previous one for the same email:
after `issue_otp` stores `code1` and a second `issue_otp` stores
`code2` (`code1 ≠ code2`), validating `code1` returns false and then
validating `code2` (before it expires) returns true. -/
theorem issue_otp_supersedes (ttl : Nat) (email code1 code2 : String)
    (st : RedisState) (t1 t2 t3 : Nat) (hne : code1 ≠ code2)
    (hlive : t3 < t2 + ttl) :
    (validate_otp email code1
        (issue_otp ttl email code2 (issue_otp ttl email code1 st t1).2 t2).2 t3).1 = false ∧
      (validate_otp email code2
        (validate_otp email code1
          (issue_otp ttl email code2 (issue_otp ttl email code1 st t1).2 t2).2 t3).2 t3).1
        = true := by
  have hget : redisGet (issue_otp ttl email code2 (issue_otp ttl email code1 st t1).2 t2).2
      (otpKey email) t3 = some code2 := by
    simp [issue_otp, redisGet_set, hlive]
  have hne' : code2 ≠ code1 := Ne.symm hne
  constructor
  · simp [validate_otp, hget, hne']
  · simp [validate_otp, hget, hne']

/-- Witness for `issue_otp_supersedes` at concrete codes `111111` and
`222222`. -/
theorem issue_otp_supersedes_witness :
    ("111111" : String) ≠ "222222" ∧ (1 : Nat) < 0 + 120 ∧
      ((validate_otp "a@x.com" "111111"
          (issue_otp 120 "a@x.com" "222222" (issue_otp 120 "a@x.com" "111111" [] 0).2 0).2 1).1
          = false ∧
        (validate_otp "a@x.com" "222222"
          (validate_otp "a@x.com" "111111"
            (issue_otp 120 "a@x.com" "222222" (issue_otp 120 "a@x.com" "111111" [] 0).2 0).2 1).2 1).1
          = true) :=
  ⟨by decide, by decide,
   issue_otp_supersedes 120 "a@x.com" "111111" "222222" [] 0 0 1 (by decide) (by decide)⟩

/-- C4: registering an email already held by a stored account fails with
the 400 conflict error regardless of that account's provider, and both
the account store and the OTP store are returned unchanged (the check
precedes every write). -/
theorem register_conflict (hashFn : String → String) (ttl : Nat)
    (email password otpCode : String) (sendResult : Bool × Option String)
    (st : AuthState) (now : Nat) (u : User)
    (hu : get_user_by_email st.users email = some u) :
    register hashFn ttl email password otpCode sendResult st now =
      (.error ⟨400, "An account with this email already exists."⟩, st) := by
  simp [register, hu]

/-- Witness for `register_conflict`: a second registration for an email
held by a Google-provider account is rejected with both stores
untouched. -/
theorem register_conflict_witness :
    get_user_by_email [⟨"dup@x.com", none, "google", some "gid", true, true⟩] "dup@x.com"
        = some ⟨"dup@x.com", none, "google", some "gid", true, true⟩ ∧
      register (fun p => p) 120 "dup@x.com" "pw" "123456" (true, none)
          ⟨[⟨"dup@x.com", none, "google", some "gid", true, true⟩], []⟩ 0
        = (.error ⟨400, "An account with this email already exists."⟩,
           ⟨[⟨"dup@x.com", none, "google", some "gid", true, true⟩], []⟩) :=
  ⟨by decide,
   register_conflict (fun p => p) 120 "dup@x.com" "pw" "123456" (true, none)
     ⟨[⟨"dup@x.com", none, "google", some "gid", true, true⟩], []⟩ 0
     ⟨"dup@x.com", none, "google", some "gid", true, true⟩ (by decide)⟩

lemma get_user_by_email_append_self (users : List User) (email : String) (u : User)
    (hfresh : get_user_by_email users email = none) (hu : u.email = email) :
    get_user_by_email (users ++ [u]) email = some u := by
  unfold get_user_by_email at hfresh ⊢
  rw [List.find?_append, hfresh]
  simp [List.find?, hu]

/-- C3: registration of a fresh email whose delivery fails raises the
500 delivery error, leaves no live OTP for the email, persists the
account row inactive and unverified, and a subsequent `resend_otp`
succeeds and stores a fresh code. -/
theorem register_delivery_failure (hashFn : String → String) (ttl : Nat)
    (email password otpCode : String) (err : Option String)
    (st : AuthState) (now : Nat)
    (hfresh : get_user_by_email st.users email = none) :
    (register hashFn ttl email password otpCode (false, err) st now).1
        = .error ⟨500, deliveryFailedDetail err⟩ ∧
      (∀ t, redisGet (register hashFn ttl email password otpCode (false, err) st now).2.redis
          (otpKey email) t = none) ∧
      get_user_by_email
          (register hashFn ttl email password otpCode (false, err) st now).2.users email
        = some ⟨email, some (hashFn password), "local", none, false, false⟩ ∧
      ∀ code2 t2,
        (resend_otp ttl email code2 (true, none)
            (register hashFn ttl email password otpCode (false, err) st now).2 t2).1
          = .ok () ∧
        ∀ t3, t3 < t2 + ttl →
          redisGet (resend_otp ttl email code2 (true, none)
              (register hashFn ttl email password otpCode (false, err) st now).2 t2).2.redis
            (otpKey email) t3 = some code2 := by
  have hreg : register hashFn ttl email password otpCode (false, err) st now
      = (.error ⟨500, deliveryFailedDetail err⟩,
         ⟨st.users ++ [⟨email, some (hashFn password), "local", none, false, false⟩],
          invalidate email (redisSet st.redis (otpKey email) otpCode ttl now)⟩) := by
    simp [register, hfresh, issue_otp]
  have huser : get_user_by_email
      (st.users ++ [⟨email, some (hashFn password), "local", none, false, false⟩]) email
      = some ⟨email, some (hashFn password), "local", none, false, false⟩ :=
    get_user_by_email_append_self st.users email _ hfresh rfl
  refine ⟨?_, ?_, ?_, ?_⟩
  · rw [hreg]
  · intro t
    rw [hreg]
    exact redisGet_delete _ _ t
  · rw [hreg]
    exact huser
  · intro code2 t2
    constructor
    · rw [hreg]
      simp [resend_otp, huser]
    · intro t3 ht3
      rw [hreg]
      simp [resend_otp, huser, issue_otp, redisGet_set, ht3]

/-- Witness for `register_delivery_failure` at a concrete failed
registration followed by a successful resend. -/
theorem register_delivery_failure_witness :
    get_user_by_email ([] : List User) "u@x.com" = none ∧
      (register (fun p => p) 120 "u@x.com" "pw" "123456" (false, some "boom") ⟨[], []⟩ 0).1
        = .error ⟨500, deliveryFailedDetail (some "boom")⟩ ∧
      redisGet (register (fun p => p) 120 "u@x.com" "pw" "123456" (false, some "boom")
          ⟨[], []⟩ 0).2.redis (otpKey "u@x.com") 5 = none ∧
      (resend_otp 120 "u@x.com" "654321" (true, none)
          (register (fun p => p) 120 "u@x.com" "pw" "123456" (false, some "boom")
            ⟨[], []⟩ 0).2 10).1 = .ok () ∧
      redisGet (resend_otp 120 "u@x.com" "654321" (true, none)
          (register (fun p => p) 120 "u@x.com" "pw" "123456" (false, some "boom")
            ⟨[], []⟩ 0).2 10).2.redis (otpKey "u@x.com") 11 = some "654321" := by
  have h := register_delivery_failure (fun p => p) 120 "u@x.com" "pw" "123456"
    (some "boom") ⟨[], []⟩ 0 (by decide)
  exact ⟨by decide, h.1, h.2.1 5, (h.2.2.2 "654321" 10).1,
    (h.2.2.2 "654321" 10).2 11 (by decide)⟩

/-- C2 counterexample: `login` against a Google-provider account fails
with a distinct 400 "uses social login" error, not the 401 "incorrect
credentials" failure produced for an absent account (or wrong
password) — so the provider mismatch is revealed, contrary to the
claim. -/
theorem login_social_counterexample :
    login (fun _ _ => false) 30 "g@x.com" "pw"
        ⟨[⟨"g@x.com", none, "google", some "gid", true, true⟩], []⟩ 0
      = .error ⟨400, "This account uses social login. Sign in with Google or GitHub."⟩ ∧
      login (fun _ _ => false) 30 "absent@x.com" "pw"
          ⟨[⟨"g@x.com", none, "google", some "gid", true, true⟩], []⟩ 0
        = .error ⟨401, "Incorrect email or password."⟩ ∧
      (⟨400, "This account uses social login. Sign in with Google or GitHub."⟩ : HTTPError)
        ≠ ⟨401, "Incorrect email or password."⟩ :=
  ⟨rfl, rfl, by decide⟩

/-- C2 (amended): for every stored account whose provider is not
`local` and every submitted password, `login` fails with the 400
"uses social login" error, which differs from the 401 "incorrect
credentials" failure used for absent accounts and wrong passwords. -/
theorem login_social_provider_distinct (verifyFn : String → String → Bool)
    (tokenTtl : Nat) (email password : String) (st : AuthState) (now : Nat)
    (u : User) (hu : get_user_by_email st.users email = some u)
    (hprov : u.auth_provider ≠ "local") :
    login verifyFn tokenTtl email password st now
        = .error ⟨400, "This account uses social login. Sign in with Google or GitHub."⟩ ∧
      (⟨400, "This account uses social login. Sign in with Google or GitHub."⟩ : HTTPError)
        ≠ ⟨401, "Incorrect email or password."⟩ := by
  constructor
  · simp [login, hu, hprov]
  · decide

/-- Witness for `login_social_provider_distinct` at a concrete GitHub
account. -/
theorem login_social_provider_distinct_witness :
    get_user_by_email [⟨"h@x.com", none, "github", some "hid", true, true⟩] "h@x.com"
        = some ⟨"h@x.com", none, "github", some "hid", true, true⟩ ∧
      ("github" : String) ≠ "local" ∧
      (login (fun _ _ => true) 30 "h@x.com" "anything"
            ⟨[⟨"h@x.com", none, "github", some "hid", true, true⟩], []⟩ 0
          = .error ⟨400, "This account uses social login. Sign in with Google or GitHub."⟩ ∧
        (⟨400, "This account uses social login. Sign in with Google or GitHub."⟩ : HTTPError)
          ≠ ⟨401, "Incorrect email or password."⟩) :=
  ⟨by decide, by decide,
   login_social_provider_distinct (fun _ _ => true) 30 "h@x.com" "anything"
     ⟨[⟨"h@x.com", none, "github", some "hid", true, true⟩], []⟩ 0
     ⟨"h@x.com", none, "github", some "hid", true, true⟩ (by decide) (by decide)⟩

/-- C7: `login_with_oauth` for a profile whose email is not yet held by
any account creates a verified, active, passwordless account carrying
the profile's provider and subject id, and returns an access token
whose subject is the profile's email. -/
theorem login_with_oauth_creates_account (tokenTtl : Nat) (profile : OAuthProfile)
    (email : String) (st : AuthState) (now : Nat)
    (hemail : profile.email = some email) (hne : email ≠ "")
    (hfresh : get_user_by_email st.users email = none) :
    login_with_oauth tokenTtl profile st now
      = (.ok ⟨email, now + tokenTtl⟩,
         ⟨st.users
            ++ [⟨email, none, profile.provider, some profile.provider_id, true, true⟩],
          st.redis⟩) := by
  have ht : pyTruthy (some email) = true := by
    simp [pyTruthy, hne]
  simp [login_with_oauth, hemail, ht, hfresh, create_access_token]

/-- Witness for `login_with_oauth_creates_account` at a fresh Google
profile. -/
theorem login_with_oauth_creates_account_witness :
    (OAuthProfile.email ⟨"google", "sub1", some "new@x.com", none⟩ = some "new@x.com") ∧
      ("new@x.com" : String) ≠ "" ∧
      get_user_by_email ([] : List User) "new@x.com" = none ∧
      login_with_oauth 30 ⟨"google", "sub1", some "new@x.com", none⟩ ⟨[], []⟩ 0
        = (.ok ⟨"new@x.com", 0 + 30⟩,
           ⟨[⟨"new@x.com", none, "google", some "sub1", true, true⟩], []⟩) :=
  ⟨by decide, by decide, by decide,
   login_with_oauth_creates_account 30 ⟨"google", "sub1", some "new@x.com", none⟩
     "new@x.com" ⟨[], []⟩ 0 (by decide) (by decide) (by decide)⟩

/-- C8 counterexample: the legacy `verify_password` forwards
`pwd_context.verify`, which raises `UnknownHashError` on a digest no
scheme identifies — so a malformed digest produces an escaping error,
not a `false` result. -/
theorem verify_password_malformed_counterexample :
    verify_password (fun _ _ => false) "pw" "not-a-hash" = .error .unknownHash ∧
      verify_password (fun _ _ => false) "pw" "not-a-hash" ≠ .ok false := by
  have h : verify_password (fun _ _ => false) "pw" "not-a-hash"
      = .error .unknownHash := rfl
  refine ⟨h, ?_⟩
  rw [h]
  intro hc
  cases hc

/-- C8 (amended): for every password and every digest that bcrypt does
not identify (a structurally malformed digest for this context),
`verify_password` propagates the library's `UnknownHashError` instead
of returning false. -/
theorem verify_password_malformed_raises (check : String → String → Bool)
    (password digest : String) (h : bcryptIdentify digest = false) :
    verify_password check password digest = .error .unknownHash := by
  simp [verify_password, cryptContextVerify, h]

/-- Witness for `verify_password_malformed_raises` at a concrete
malformed digest. -/
theorem verify_password_malformed_raises_witness :
    bcryptIdentify "plainly-wrong" = false ∧
      verify_password (fun _ _ => true) "pw" "plainly-wrong" = .error .unknownHash :=
  ⟨by decide,
   verify_password_malformed_raises (fun _ _ => true) "pw" "plainly-wrong" (by decide)⟩

/-- The data-model invariant for one account: `is_verified ⇒
is_active`. -/
def userInv (u : User) : Prop := u.is_verified = true → u.is_active = true

/-- The invariant over the whole `users` table. -/
def usersInv (users : List User) : Prop := ∀ u ∈ users, userInv u

lemma usersInv_append_singleton {users : List User} {u : User}
    (h : usersInv users) (hu : userInv u) : usersInv (users ++ [u]) := by
  intro v hv
  rcases List.mem_append.mp hv with h1 | h1
  · exact h v h1
  · simp at h1
    rw [h1]
    exact hu

lemma usersInv_updateUser {users : List User} {email : String} {u' : User}
    (h : usersInv users) (hu : userInv u') :
    usersInv (updateUser users email u') := by
  intro v hv
  obtain ⟨w, hw, hwv⟩ := List.mem_map.mp hv
  rw [← hwv]
  by_cases hc : (w.email == email) = true
  · rw [if_pos hc]
    exact hu
  · rw [if_neg hc]
    exact h w hw

/-- C9: every state-mutating `AuthService` operation preserves the
invariant `is_verified ⇒ is_active` over the account table: `register`
creates accounts with both flags false, `verify_otp` sets both true
together, `resend_otp` writes no account, and `login_with_oauth` sets
both true together on its existing-account and new-account paths
(`login` never writes accounts at all, and returns no state). -/
theorem auth_preserves_verified_implies_active (hashFn : String → String)
    (ttl tokenTtl : Nat) (email password otpCode code : String)
    (sendResult : Bool × Option String) (profile : OAuthProfile)
    (st : AuthState) (now : Nat) (hinv : usersInv st.users) :
    usersInv (register hashFn ttl email password otpCode sendResult st now).2.users ∧
      usersInv (verify_otp email code st now).2.users ∧
      usersInv (resend_otp ttl email otpCode sendResult st now).2.users ∧
      usersInv (login_with_oauth tokenTtl profile st now).2.users := by
  refine ⟨?_, ?_, ?_, ?_⟩
  · cases hg : get_user_by_email st.users email with
    | some u => simp only [register, hg]; exact hinv
    | none =>
        cases hsend : sendResult.1 with
        | true =>
            simp only [register, hg, hsend, if_true]
            exact usersInv_append_singleton hinv (by intro hv; cases hv)
        | false =>
            simp only [register, hg, hsend, Bool.false_eq_true, if_false]
            exact usersInv_append_singleton hinv (by intro hv; cases hv)
  · cases hg : get_user_by_email st.users email with
    | none => simp only [verify_otp, hg]; exact hinv
    | some u =>
        cases hv : (validate_otp email code st.redis now).1 with
        | true =>
            simp only [verify_otp, hg, hv, if_true]
            exact usersInv_updateUser hinv (by intro _; rfl)
        | false =>
            simp only [verify_otp, hg, hv, Bool.false_eq_true, if_false]
            exact hinv
  · cases hg : get_user_by_email st.users email with
    | none => simp only [resend_otp, hg]; exact hinv
    | some u =>
        cases hsend : sendResult.1 with
        | true => simp only [resend_otp, hg, hsend, if_true]; exact hinv
        | false =>
            simp only [resend_otp, hg, hsend, Bool.false_eq_true, if_false]
            exact hinv
  · unfold login_with_oauth
    split
    · exact hinv
    · dsimp only
      split
      · split
        · exact hinv
        · split
          · exact hinv
          · exact usersInv_updateUser hinv (by intro _; rfl)
      · exact usersInv_append_singleton hinv (by intro _; rfl)

/-- Witness for `auth_preserves_verified_implies_active` on a one-row
table satisfying the invariant. -/
theorem auth_preserves_verified_implies_active_witness :
    usersInv [⟨"a@x.com", some "h", "local", none, false, false⟩] ∧
      usersInv (register (fun p => p) 120 "b@x.com" "pw" "123456" (true, none)
        ⟨[⟨"a@x.com", some "h", "local", none, false, false⟩], []⟩ 0).2.users := by
  have hinv : usersInv [⟨"a@x.com", some "h", "local", none, false, false⟩] := by
    intro u hu
    simp at hu
    rw [hu]
    intro hv
    cases hv
  exact ⟨hinv,
    (auth_preserves_verified_implies_active (fun p => p) 120 30 "b@x.com" "pw" "123456"
      "000000" (true, none) ⟨"google", "gid", some "c@x.com", none⟩
      ⟨[⟨"a@x.com", some "h", "local", none, false, false⟩], []⟩ 0 hinv).1⟩

/-- C5: full behaviour of `OAuthService.validate_state`: invalid format
when the token does not split into exactly three colon-delimited parts
or its middle part is not an integer; invalid signature when the
recomputed signed token differs from the input (the comparison is
`hmac.compare_digest`, functionally string equality); expired when
`now - ts` exceeds the TTL; otherwise success. In particular a token
from `generate_state` validated within the TTL succeeds, and the same
token with its signature component altered fails with the signature
error. -/
theorem validate_state_spec (hmacFn : Chars → Chars) (ttl : Nat) (now : Int) :
    (∀ state : Chars, (∀ a b c : Chars, pySplit ':' state ≠ [a, b, c]) →
        validate_state hmacFn ttl now state = .error invalidStateError) ∧
      (∀ (state a b c : Chars), pySplit ':' state = [a, b, c] → pyInt b = none →
        validate_state hmacFn ttl now state = .error invalidStateError) ∧
      (∀ (state a b c : Chars) (ts : Int), pySplit ':' state = [a, b, c] →
        pyInt b = some ts → sign_state hmacFn a ts ≠ state →
        validate_state hmacFn ttl now state = .error invalidSignatureError) ∧
      (∀ (state a b c : Chars) (ts : Int), pySplit ':' state = [a, b, c] →
        pyInt b = some ts → sign_state hmacFn a ts = state →
        now - ts > (ttl : Int) →
        validate_state hmacFn ttl now state = .error expiredStateError) ∧
      (∀ (state a b c : Chars) (ts : Int), pySplit ':' state = [a, b, c] →
        pyInt b = some ts → sign_state hmacFn a ts = state →
        ¬(now - ts > (ttl : Int)) →
        validate_state hmacFn ttl now state = .ok ()) ∧
      (∀ (nonce : Chars) (t0 : Nat), (∀ ch ∈ nonce, ch ≠ ':') →
        (∀ ch ∈ hmacFn (nonce ++ ':' :: natChars t0), ch ≠ ':') →
        now - (t0 : Int) ≤ (ttl : Int) →
        validate_state hmacFn ttl now (generate_state hmacFn nonce t0) = .ok ()) ∧
      (∀ (nonce sig' : Chars) (t0 : Nat), (∀ ch ∈ nonce, ch ≠ ':') →
        (∀ ch ∈ sig', ch ≠ ':') →
        sig' ≠ hmacFn (nonce ++ ':' :: natChars t0) →
        validate_state hmacFn ttl now (nonce ++ ':' :: (natChars t0 ++ ':' :: sig'))
          = .error invalidSignatureError) := by
  have hgen : ∀ (nonce : Chars) (t0 : Nat),
      generate_state hmacFn nonce t0
        = nonce ++ ':' :: (natChars t0 ++ ':' :: hmacFn (nonce ++ ':' :: natChars t0)) := by
    intro nonce t0
    simp [generate_state, sign_state, intChars_ofNat, List.append_assoc]
  refine ⟨?_, ?_, ?_, ?_, ?_, ?_, ?_⟩
  · intro state h
    exact validate_state_not_triple hmacFn ttl now state h
  · intro state a b c hsp hb
    exact validate_state_badint hmacFn ttl now state a b c hsp hb
  · intro state a b c ts hsp hts hne
    rw [validate_state_parse hmacFn ttl now state a b c ts hsp hts, if_neg hne]
  · intro state a b c ts hsp hts heq hgt
    rw [validate_state_parse hmacFn ttl now state a b c ts hsp hts, if_pos heq,
      if_pos hgt]
  · intro state a b c ts hsp hts heq hgt
    rw [validate_state_parse hmacFn ttl now state a b c ts hsp hts, if_pos heq,
      if_neg hgt]
  · intro nonce t0 hn hh hfreshr
    have hsp : pySplit ':' (generate_state hmacFn nonce t0)
        = [nonce, natChars t0, hmacFn (nonce ++ ':' :: natChars t0)] := by
      rw [hgen]
      exact pySplit_triple ':' _ _ _ hn (natChars_ne_colon t0) hh
    rw [validate_state_parse hmacFn ttl now _ _ _ _ _ hsp (pyInt_natChars t0),
      if_pos (show sign_state hmacFn nonce (t0 : Int) = generate_state hmacFn nonce t0
        from rfl),
      if_neg (by omega)]
  · intro nonce sig' t0 hn hs hne
    have hsp : pySplit ':' (nonce ++ ':' :: (natChars t0 ++ ':' :: sig'))
        = [nonce, natChars t0, sig'] :=
      pySplit_triple ':' _ _ _ hn (natChars_ne_colon t0) hs
    rw [validate_state_parse hmacFn ttl now _ _ _ _ _ hsp (pyInt_natChars t0)]
    rw [if_neg ?hne]
    case hne =>
      intro heq
      have hgen' : sign_state hmacFn nonce (t0 : Int)
          = nonce ++ ':' :: (natChars t0 ++ ':' :: hmacFn (nonce ++ ':' :: natChars t0)) :=
        hgen nonce t0
      rw [hgen'] at heq
      have h1 := List.append_cancel_left heq
      have h2 := (List.cons.injEq _ _ _ _).mp h1
      have h3 := List.append_cancel_left h2.2
      have h4 := (List.cons.injEq _ _ _ _).mp h3
      exact hne h4.2.symm

/-- Witness for `validate_state_spec`: with a concrete keyed hash, a
generated token validates within the TTL, and the same token with its
signature replaced fails with the signature error. -/
theorem validate_state_spec_witness :
    (∀ ch ∈ (['n'] : Chars), ch ≠ ':') ∧
      (∀ ch ∈ (fun (_ : Chars) => (['a', 'b'] : Chars)) (['n'] ++ ':' :: natChars 5),
        ch ≠ ':') ∧
      ((6 : Int) - (5 : Nat) ≤ (600 : Nat)) ∧
      validate_state (fun _ => ['a', 'b']) 600 6
          (generate_state (fun _ => ['a', 'b']) ['n'] 5) = .ok () ∧
      validate_state (fun _ => ['a', 'b']) 600 6
          (['n'] ++ ':' :: (natChars 5 ++ ':' :: ['z'])) = .error invalidSignatureError :=
  ⟨by decide, by decide, by decide,
   (validate_state_spec (fun _ => ['a', 'b']) 600 6).2.2.2.2.2.1 ['n'] 5
     (by decide) (by decide) (by decide),
   (validate_state_spec (fun _ => ['a', 'b']) 600 6).2.2.2.2.2.2 ['n'] ['z'] 5
     (by decide) (by decide) (by decide)⟩

end UserMgmt
